import Mathlib

/-!
Shallow embedding of the charger-control core of the esp32-energy-monitor
firmware.  The main model follows `src/src/main.cpp` (`turnChargerOn`,
`turnChargerOff`, `controlCharger`, `printStatus`, the DIP-switch table in
`setup`, and the measurement gate in `loop`).  A second model follows the
variant sketch `src/unnamed/part_003`, whose `turnChargerOff` carries the
`MIN_RUN_TIME` guard, and a third follows the older sketch
`src/unnamed/part_004` (`powerAbove` / `powerBelow` timers in `loop`).

Machine integers: `unsigned long` on the ESP32 is 32 bits and `millis()`
wraps, so timestamps are natural numbers and every subtraction the firmware
performs is modelled by `usub32`, subtraction modulo `2 ^ 32`.  Power
readings are `int` in the firmware and `POWER_THRESHOLD` is a `float` whose
eight possible values are all whole numbers exactly representable, so the
comparison `solarPower >= POWER_THRESHOLD` agrees with the integer
comparison used here.
-/

namespace EnergyMonitor

/-- `2 ^ 32`, the modulus of the 32-bit `unsigned long` used by `millis()`. -/
def W : Nat := 4294967296

/-- C `unsigned long` subtraction `a - b`: subtraction modulo `2 ^ 32`. -/
def usub32 (a b : Nat) : Nat := (a + W - b % W) % W

/-- The configuration globals `POWER_THRESHOLD` (watts) and
`HYSTERESIS_TIME` (milliseconds) of `main.cpp`. -/
structure Config where
  powerThreshold : Int
  hysteresisTime : Nat
deriving DecidableEq

/-- The mutable controller globals of `main.cpp` (timestamp `0` doubles as
the "timer unset" sentinel, exactly as in the source). -/
structure CState where
  chargerOn : Bool
  lastSwitchTime : Nat
  powerHighStartTime : Nat
  powerLowStartTime : Nat
deriving DecidableEq

/-- Initial values of the controller globals in `main.cpp`. -/
def initState : CState := ⟨false, 0, 0, 0⟩

/-- `turnChargerOn` of `main.cpp` (identical in `part_003`).  The second
component is the relay command issued by `digitalWrite`, `none` when no
write happens this call. -/
def turnChargerOn (cfg : Config) (t : Nat) (s : CState) : CState × Option Bool :=
  let s1 := if s.powerHighStartTime = 0 then { s with powerHighStartTime := t } else s
  if cfg.hysteresisTime ≤ usub32 t s1.powerHighStartTime then
    ({ s1 with chargerOn := true, lastSwitchTime := t, powerLowStartTime := 0 }, some true)
  else
    (s1, none)

/-- `turnChargerOff` of `main.cpp` (no minimum-run-time guard). -/
def turnChargerOff (cfg : Config) (t : Nat) (s : CState) : CState × Option Bool :=
  let s1 := if s.powerLowStartTime = 0 then { s with powerLowStartTime := t } else s
  if cfg.hysteresisTime ≤ usub32 t s1.powerLowStartTime then
    ({ s1 with chargerOn := false, lastSwitchTime := t, powerHighStartTime := 0 }, some false)
  else
    (s1, none)

/-- `controlCharger` of `main.cpp`: one tick of the decision logic at time
`t` with reading `p`. -/
def controlCharger (cfg : Config) (s : CState) (t : Nat) (p : Int) : CState × Option Bool :=
  if s.chargerOn = false then
    if cfg.powerThreshold ≤ p then turnChargerOn cfg t s
    else ({ s with powerHighStartTime := 0 }, none)
  else
    if p < cfg.powerThreshold then turnChargerOff cfg t s
    else ({ s with powerLowStartTime := 0 }, none)

/-- `turnChargerOff` of `src/unnamed/part_003`: the `MIN_RUN_TIME` guard
returns without touching any state, otherwise the body is the same as the
`main.cpp` version. -/
def turnChargerOffMinRun (cfg : Config) (mrt t : Nat) (s : CState) : CState × Option Bool :=
  if usub32 t s.lastSwitchTime < mrt then (s, none)
  else turnChargerOff cfg t s

/-- `controlCharger` of `src/unnamed/part_003`: two non-nested blocks, the
second reads the state already updated by the first. -/
def controlChargerMinRun (cfg : Config) (mrt : Nat) (s : CState) (t : Nat) (p : Int) :
    CState × Option Bool :=
  let r1 :=
    if s.chargerOn = false ∧ cfg.powerThreshold ≤ p then turnChargerOn cfg t s
    else ({ s with powerHighStartTime := 0 }, none)
  let r2 :=
    if r1.1.chargerOn = true ∧ p < cfg.powerThreshold then turnChargerOffMinRun cfg mrt t r1.1
    else ({ r1.1 with powerLowStartTime := 0 }, none)
  (r2.1, match r1.2 with | some c => some c | none => r2.2)

/-- The mutable globals of `src/unnamed/part_004`. -/
structure P4State where
  powerAbove : Nat
  powerBelow : Nat
  isCharging : Bool
deriving DecidableEq

/-- Initial values of the `part_004` globals. -/
def initP4 : P4State := ⟨0, 0, false⟩

/-- The decision body of `loop` in `src/unnamed/part_004` at time `t` with
reading `p` (`THRESHOLDWATTAGE` and `THRESHOLDTIME` as parameters). -/
def part4LoopBody (tw : Int) (tt : Nat) (s : P4State) (t : Nat) (p : Int) : P4State :=
  if tw ≤ p then
    let s1 := { s with powerBelow := 0 }
    let s2 := if s1.powerAbove = 0 then { s1 with powerAbove := t } else s1
    if tt ≤ usub32 t s2.powerAbove ∧ s2.isCharging = false then
      { s2 with isCharging := true }
    else s2
  else
    let s1 := if s.powerBelow = 0 then { s with powerBelow := t } else s
    if tt ≤ usub32 t s1.powerBelow ∧ s1.isCharging = true then
      { s1 with isCharging := false, powerAbove := 0 }
    else s1

/-- State of the `main.cpp` controller after processing the first `n` ticks
of the trace `xs` (list of (time, reading) pairs), starting from `s0`. -/
def stateAt (cfg : Config) (s0 : CState) (xs : List (Nat × Int)) : Nat → CState
  | 0 => s0
  | n + 1 =>
    if h : n < xs.length then
      (controlCharger cfg (stateAt cfg s0 xs n) (xs.get ⟨n, h⟩).1 (xs.get ⟨n, h⟩).2).1
    else stateAt cfg s0 xs n

/-- State of the `part_003` controller after the first `n` ticks of `xs`. -/
def stateAtMinRun (cfg : Config) (mrt : Nat) (s0 : CState) (xs : List (Nat × Int)) :
    Nat → CState
  | 0 => s0
  | n + 1 =>
    if h : n < xs.length then
      (controlChargerMinRun cfg mrt (stateAtMinRun cfg mrt s0 xs n)
        (xs.get ⟨n, h⟩).1 (xs.get ⟨n, h⟩).2).1
    else stateAtMinRun cfg mrt s0 xs n

/-- State of the `part_004` controller after the first `n` ticks of `xs`. -/
def stateAtP4 (tw : Int) (tt : Nat) (s0 : P4State) (xs : List (Nat × Int)) : Nat → P4State
  | 0 => s0
  | n + 1 =>
    if h : n < xs.length then
      part4LoopBody tw tt (stateAtP4 tw tt s0 xs n) (xs.get ⟨n, h⟩).1 (xs.get ⟨n, h⟩).2
    else stateAtP4 tw tt s0 xs n

/-- Second LCD row of `printStatus` in `main.cpp`: either the switch-off
countdown (in seconds) or the static configuration. -/
inductive Line1 where
  | countdown (secondsLeft : Nat)
  | configInfo (hystSeconds : Nat) (threshold : Int)
deriving DecidableEq

/-- The view `printStatus` presents: first row (reading and charger state)
and second row. -/
structure StatusView where
  power : Int
  chargerOn : Bool
  line1 : Line1
deriving DecidableEq

/-- `printStatus` of `main.cpp` for reading `p` at display time `now`. -/
def printStatus (cfg : Config) (s : CState) (p : Int) (now : Nat) : StatusView :=
  let showCountdown := s.chargerOn = true ∧ p < cfg.powerThreshold ∧ 0 < s.powerLowStartTime
  let elapsed := usub32 now s.powerLowStartTime
  if showCountdown ∧ elapsed < cfg.hysteresisTime then
    { power := p, chargerOn := s.chargerOn,
      line1 := .countdown ((cfg.hysteresisTime - elapsed) / 1000) }
  else
    { power := p, chargerOn := s.chargerOn,
      line1 := .configInfo (cfg.hysteresisTime / 1000) cfg.powerThreshold }

/-- The DIP value computed in `setup` of `main.cpp`:
`(d1 ? 4 : 0) | (d2 ? 2 : 0) | (d3 ? 1 : 0)`. -/
def dipValue (d1 d2 d3 : Bool) : Nat :=
  (if d1 then 4 else 0) ||| (if d2 then 2 else 0) ||| (if d3 then 1 else 0)

/-- The `switch (dipValue)` table in `setup` of `main.cpp`, returning
`(HYSTERESIS_TIME, POWER_THRESHOLD)`.  When no case matches the globals
keep their initial values `120000` ms and `1000` W. -/
def resolveDip (v : Nat) : Nat × Int :=
  match v with
  | 0 => (120000, 500)
  | 1 => (120000, 1000)
  | 2 => (120000, 1500)
  | 3 => (120000, 2000)
  | 4 => (240000, 500)
  | 5 => (240000, 1000)
  | 6 => (240000, 1500)
  | 7 => (240000, 2000)
  | _ => (120000, 1000)

/-- `getSolarPower` of `main.cpp`: `none` when WiFi is down, the HTTP status
is not 200, or JSON parsing fails (`parsed = none`); otherwise the parsed
`active_power_w` value negated. -/
def getSolarPower (wifiConnected : Bool) (httpResponseCode : Int) (parsed : Option Int) :
    Option Int :=
  if wifiConnected = false then none
  else if httpResponseCode = 200 then
    match parsed with
    | none => none
    | some v => some (-v)
  else none

/-- Controller state plus the `lastMeasurementTime` global of `main.cpp`. -/
structure SysState where
  ctrl : CState
  lastMeasurementTime : Nat
deriving DecidableEq

/-- One pass of `loop` in `main.cpp` at time `now`: behind the measurement
gate, run `controlCharger` only when the fetch succeeded; the fetch result
is passed in as `fetch`. -/
def loopTick (cfg : Config) (interval : Nat) (fetch : Option Int) (now : Nat) (s : SysState) :
    SysState × Option Bool :=
  if interval ≤ usub32 now s.lastMeasurementTime then
    match fetch with
    | none => ({ s with lastMeasurementTime := now }, none)
    | some p =>
      let r := controlCharger cfg s.ctrl now p
      ({ ctrl := r.1, lastMeasurementTime := now }, r.2)
  else
    (s, none)

/-! ### Shared helper lemmas -/

theorem usub32_self (t : Nat) : usub32 t t = 0 := by
  unfold usub32 W
  omega

theorem off_step_low (cfg : Config) (s : CState) (t : Nat) (p : Int)
    (h : s.chargerOn = false) :
    (controlCharger cfg s t p).1.chargerOn = false ∨
    (controlCharger cfg s t p).1.powerLowStartTime = 0 := by
  simp only [controlCharger, h, if_true]
  split
  · simp only [turnChargerOn]
    split <;> (try split) <;> simp [h]
  · left
    rfl

theorem on_step_low (cfg : Config) (s : CState) (t : Nat) (p : Int)
    (h : s.chargerOn = true) (hp : ¬ p < cfg.powerThreshold) :
    (controlCharger cfg s t p).1.powerLowStartTime = 0 := by
  simp only [controlCharger, h]
  rw [if_neg (by simp), if_neg hp]

/-! ### Claim theorems -/

/-- C4: a reading equal to the threshold takes the ON-qualification path in
`controlCharger` (starting the above-threshold timer when it was unset and
continuing it otherwise) and, when the charger is on, takes the
else-branch that clears the OFF timer — never the OFF-qualification path,
which requires a strictly smaller reading. -/
theorem tie_on_path (cfg : Config) (s : CState) (t : Nat) :
    (s.chargerOn = false →
      controlCharger cfg s t cfg.powerThreshold = turnChargerOn cfg t s ∧
      (s.powerHighStartTime = 0 →
        (controlCharger cfg s t cfg.powerThreshold).1.powerHighStartTime = t) ∧
      (s.powerHighStartTime ≠ 0 →
        (controlCharger cfg s t cfg.powerThreshold).1.powerHighStartTime =
          s.powerHighStartTime)) ∧
    (s.chargerOn = true →
      controlCharger cfg s t cfg.powerThreshold = ({ s with powerLowStartTime := 0 }, none)) := by
  constructor
  · intro h
    refine ⟨by simp [controlCharger, h], ?_, ?_⟩
    · intro h0
      simp only [controlCharger, h, le_refl, if_true, turnChargerOn, h0, if_pos]
      split <;> rfl
    · intro h0
      simp only [controlCharger, h, le_refl, if_true, turnChargerOn, if_neg h0]
      split <;> rfl
  · intro h
    simp [controlCharger, h]

theorem tie_on_path_witness :
    (controlCharger ⟨500, 120000⟩ ⟨false, 0, 0, 0⟩ 7 500).1.powerHighStartTime = 7 :=
  ((tie_on_path ⟨500, 120000⟩ ⟨false, 0, 0, 0⟩ 7).1 rfl).2.1 rfl

/-- C5: the DIP-switch lookup is total over the eight selector values and
deterministic; the most significant bit selects the hysteresis time
(0 → 120 s, 1 → 240 s, in milliseconds) and the two low bits select the
power threshold 00 → 500 W, 01 → 1000 W, 10 → 1500 W, 11 → 2000 W; the
selector is read with DIP 1 as the most significant bit. -/
theorem dip_table :
    (∀ v : Nat, v < 8 →
      resolveDip v =
        ((if v / 4 = 1 then 240000 else 120000 : Nat),
          (500 : Int) * ((v % 4 : Nat) + 1))) ∧
    (∀ d1 d2 d3 : Bool,
      dipValue d1 d2 d3 =
        4 * (if d1 then 1 else 0) + 2 * (if d2 then 1 else 0) + (if d3 then 1 else 0)) := by
  constructor
  · intro v hv
    interval_cases v <;> decide
  · decide

theorem dip_table_witness : resolveDip 6 = (240000, 1500) :=
  (dip_table.1 6 (by decide)).trans (by decide)

/-- C9: timestamp 0 is the "timer unset" sentinel, so a qualifying reading
at `millis() = 0` assigns the timer to 0 and leaves it unset (no transition
happens either); the window only starts at a tick with a nonzero
timestamp. -/
theorem zero_time_sentinel (cfg : Config) (s : CState) (p : Int)
    (hH : 0 < cfg.hysteresisTime) :
    (s.chargerOn = false → s.powerHighStartTime = 0 → cfg.powerThreshold ≤ p →
      (controlCharger cfg s 0 p).1.powerHighStartTime = 0 ∧
      (controlCharger cfg s 0 p).1.chargerOn = false) ∧
    (s.chargerOn = true → s.powerLowStartTime = 0 → p < cfg.powerThreshold →
      (controlCharger cfg s 0 p).1.powerLowStartTime = 0 ∧
      (controlCharger cfg s 0 p).1.chargerOn = true) ∧
    (∀ t : Nat, t ≠ 0 → s.chargerOn = false → s.powerHighStartTime = 0 →
      cfg.powerThreshold ≤ p →
      (controlCharger cfg s t p).1.powerHighStartTime = t) := by
  refine ⟨?_, ?_, ?_⟩
  · intro h h0 hp
    simp only [controlCharger, h, if_true, if_pos hp, turnChargerOn, h0, if_pos]
    rw [if_neg]
    · exact ⟨rfl, rfl⟩
    · simp only [usub32_self]
      omega
  · intro h h0 hp
    simp only [controlCharger, h]
    rw [if_neg (by simp), if_pos hp]
    simp only [turnChargerOff, h0, if_pos]
    rw [if_neg]
    · exact ⟨rfl, h⟩
    · simp only [usub32_self]
      omega
  · intro t ht h h0 hp
    simp only [controlCharger, h, if_true, if_pos hp, turnChargerOn, h0, if_pos]
    split <;> rfl

theorem zero_time_sentinel_witness :
    (controlCharger ⟨500, 120000⟩ ⟨false, 0, 0, 0⟩ 0 900).1.powerHighStartTime = 0 ∧
    (controlCharger ⟨500, 120000⟩ ⟨false, 0, 0, 0⟩ 0 900).1.chargerOn = false :=
  (zero_time_sentinel ⟨500, 120000⟩ ⟨false, 0, 0, 0⟩ 900 (by decide)).1 rfl rfl (by decide)

/-- C10: the unsigned 32-bit modular subtraction used by every elapsed-time
check recovers the true elapsed time — and hence compares correctly
against any duration — whenever the true elapsed time is below `2 ^ 32`
milliseconds, across `millis()` wraparound, for a nonzero stored start. -/
theorem wrap_exact (tStart tNow d : Nat) (hle : tStart ≤ tNow) (hlt : tNow - tStart < W)
    (hnz : tStart % W ≠ 0) :
    usub32 (tNow % W) (tStart % W) = tNow - tStart ∧
    (d ≤ usub32 (tNow % W) (tStart % W) ↔ d ≤ tNow - tStart) := by
  have h : usub32 (tNow % W) (tStart % W) = tNow - tStart := by
    unfold usub32 W at *
    omega
  exact ⟨h, by rw [h]⟩

theorem wrap_exact_witness :
    usub32 (4294967796 % W) (4294966296 % W) = 4294967796 - 4294966296 ∧
    (120000 ≤ usub32 (4294967796 % W) (4294966296 % W) ↔
      120000 ≤ 4294967796 - 4294966296) :=
  wrap_exact 4294966296 4294967796 120000 (by decide) (by decide) (by decide)

/-- C2 counterexample: after the trace below (threshold 1000 W, hysteresis
120 s) the `main.cpp` controller has BOTH qualification timers nonzero: an
ON transition clears only `powerLowStartTime` and leaves
`powerHighStartTime` set, so the next below-threshold tick sets both. -/
theorem both_timers_set :
    (stateAt ⟨1000, 120000⟩ initState
        [(10000, 1000), (130000, 1000), (140000, 0)] 3).powerHighStartTime ≠ 0 ∧
    (stateAt ⟨1000, 120000⟩ initState
        [(10000, 1000), (130000, 1000), (140000, 0)] 3).powerLowStartTime ≠ 0 := by
  decide

/-- C2 amended: the controller only ever starts a qualification timer in
the direction opposite its current actuator state — while OFF the
below-threshold timer is never started (only left alone or cleared), and
while ON the above-threshold timer is never started — but a completed
transition leaves the timer that triggered it set, so both timers can be
nonzero simultaneously in reachable states. -/
theorem opposite_timer_only (cfg : Config) (s : CState) (t : Nat) (p : Int) :
    (s.chargerOn = false →
      (controlCharger cfg s t p).1.powerLowStartTime = s.powerLowStartTime ∨
      (controlCharger cfg s t p).1.powerLowStartTime = 0) ∧
    (s.chargerOn = true →
      (controlCharger cfg s t p).1.powerHighStartTime = s.powerHighStartTime ∨
      (controlCharger cfg s t p).1.powerHighStartTime = 0) := by
  constructor
  · intro h
    simp only [controlCharger, h, if_true]
    split
    · simp only [turnChargerOn]
      split <;> split <;> simp
    · simp
  · intro h
    simp only [controlCharger, h]
    rw [if_neg (by simp)]
    split
    · simp only [turnChargerOff]
      split <;> split <;> simp
    · simp

theorem opposite_timer_only_witness :
    (controlCharger ⟨500, 120000⟩ ⟨false, 0, 0, 7⟩ 5 600).1.powerLowStartTime = 7 ∨
    (controlCharger ⟨500, 120000⟩ ⟨false, 0, 0, 7⟩ 5 600).1.powerLowStartTime = 0 :=
  (opposite_timer_only ⟨500, 120000⟩ ⟨false, 0, 0, 7⟩ 5 600).1 rfl

/-- C6: when the power fetch fails (WiFi down, non-200 status, or JSON
parse error) `getSolarPower` reports failure, the tick leaves every
controller field unchanged and issues no relay command, and a later
successful tick that passes the measurement gate evaluates
`controlCharger` on exactly the controller state from before the failed
ticks. -/
theorem fetch_failure_skip (cfg : Config) (interval : Nat) (wifi : Bool) (code : Int)
    (parsed : Option Int) (now : Nat) (s : SysState)
    (hfail : wifi = false ∨ code ≠ 200 ∨ parsed = none) :
    getSolarPower wifi code parsed = none ∧
    (loopTick cfg interval none now s).1.ctrl = s.ctrl ∧
    (loopTick cfg interval none now s).2 = none ∧
    (∀ (t2 : Nat) (p : Int),
      interval ≤ usub32 t2 (loopTick cfg interval none now s).1.lastMeasurementTime →
      (loopTick cfg interval (some p) t2 (loopTick cfg interval none now s).1).1.ctrl =
        (controlCharger cfg s.ctrl t2 p).1) := by
  refine ⟨?_, ?_, ?_, ?_⟩
  · rcases hfail with h | h | h
    · simp [getSolarPower, h]
    · cases wifi <;> simp [getSolarPower, h]
    · cases wifi <;> simp [getSolarPower, h]
  · simp only [loopTick]
    split <;> rfl
  · simp only [loopTick]
    split <;> rfl
  · intro t2 p hgate
    by_cases h1 : interval ≤ usub32 now s.lastMeasurementTime
    · have e1 : (loopTick cfg interval none now s).1 =
          { ctrl := s.ctrl, lastMeasurementTime := now } := by
        simp [loopTick, h1]
      rw [e1] at hgate ⊢
      simp [loopTick, hgate]
    · have e1 : (loopTick cfg interval none now s).1 = s := by
        simp [loopTick, h1]
      rw [e1] at hgate ⊢
      simp [loopTick, hgate]

theorem fetch_failure_skip_witness :
    getSolarPower false 200 (some 5) = none ∧
    (loopTick ⟨500, 120000⟩ 10000 (some 700) 20000
        ((loopTick ⟨500, 120000⟩ 10000 none 3 ⟨initState, 0⟩).1)).1.ctrl =
      (controlCharger ⟨500, 120000⟩ initState 20000 700).1 := by
  have h := fetch_failure_skip ⟨500, 120000⟩ 10000 false 200 (some 5) 3 ⟨initState, 0⟩
    (Or.inl rfl)
  exact ⟨h.1, h.2.2.2 20000 700 (by decide)⟩

/-- C7: the view produced right after a `controlCharger` tick always shows
the reading and the charger state; row two is the countdown
`(hysteresisTime - elapsed) / 1000` exactly when the charger is ON, the
below-threshold timer is set and it has not yet reached the hysteresis
time, and otherwise shows the static configuration. -/
theorem display_rule (cfg : Config) (s : CState) (t : Nat) (p : Int) :
    (printStatus cfg (controlCharger cfg s t p).1 p t).power = p ∧
    (printStatus cfg (controlCharger cfg s t p).1 p t).chargerOn =
      (controlCharger cfg s t p).1.chargerOn ∧
    ((controlCharger cfg s t p).1.chargerOn = true ∧
        (controlCharger cfg s t p).1.powerLowStartTime ≠ 0 ∧
        usub32 t (controlCharger cfg s t p).1.powerLowStartTime < cfg.hysteresisTime →
      (printStatus cfg (controlCharger cfg s t p).1 p t).line1 =
        .countdown
          ((cfg.hysteresisTime - usub32 t (controlCharger cfg s t p).1.powerLowStartTime) /
            1000)) ∧
    (¬((controlCharger cfg s t p).1.chargerOn = true ∧
        (controlCharger cfg s t p).1.powerLowStartTime ≠ 0 ∧
        usub32 t (controlCharger cfg s t p).1.powerLowStartTime < cfg.hysteresisTime) →
      (printStatus cfg (controlCharger cfg s t p).1 p t).line1 =
        .configInfo (cfg.hysteresisTime / 1000) cfg.powerThreshold) := by
  have hkey : (controlCharger cfg s t p).1.chargerOn = true →
      (controlCharger cfg s t p).1.powerLowStartTime ≠ 0 → p < cfg.powerThreshold := by
    intro hOn hLow
    by_contra hp
    rcases hb : s.chargerOn with _ | _
    · rcases off_step_low cfg s t p hb with hc | hl
      · rw [hc] at hOn
        exact Bool.false_ne_true hOn
      · exact hLow hl
    · exact hLow (on_step_low cfg s t p hb hp)
  refine ⟨?_, ?_, ?_, ?_⟩
  · simp only [printStatus]
    split <;> rfl
  · simp only [printStatus]
    split <;> rfl
  · rintro ⟨hOn, hLow, hE⟩
    have hp := hkey hOn hLow
    have hcond : ((controlCharger cfg s t p).1.chargerOn = true ∧ p < cfg.powerThreshold ∧
        0 < (controlCharger cfg s t p).1.powerLowStartTime) ∧
        usub32 t (controlCharger cfg s t p).1.powerLowStartTime < cfg.hysteresisTime :=
      ⟨⟨hOn, hp, Nat.pos_of_ne_zero hLow⟩, hE⟩
    simp only [printStatus]
    rw [if_pos hcond]
  · intro hc
    simp only [printStatus]
    rw [if_neg]
    intro hcon
    exact hc ⟨hcon.1.1, Nat.pos_iff_ne_zero.1 hcon.1.2.2, hcon.2⟩

theorem display_rule_witness :
    (printStatus ⟨500, 120000⟩
        (controlCharger ⟨500, 120000⟩ ⟨true, 0, 0, 0⟩ 50000 100).1 100 50000).line1 =
      Line1.countdown 120 :=
  ((display_rule ⟨500, 120000⟩ ⟨true, 0, 0, 0⟩ 50000 100).2.2.1 (by decide)).trans (by decide)

/-! ### Helper lemmas about the `part_003` step -/

theorem minrun_step_on (cfg : Config) (mrt : Nat) (s : CState) (t : Nat) (p : Int)
    (h1 : s.chargerOn = true) :
    controlChargerMinRun cfg mrt s t p =
      if p < cfg.powerThreshold then
        turnChargerOffMinRun cfg mrt t { s with powerHighStartTime := 0 }
      else ({ s with powerHighStartTime := 0, powerLowStartTime := 0 }, none) := by
  by_cases hp : p < cfg.powerThreshold <;>
    simp [controlChargerMinRun, h1, hp]

theorem minrun_on_preserves (cfg : Config) (mrt : Nat) (s : CState) (t : Nat) (p : Int)
    (h1 : s.chargerOn = true)
    (h2 : (controlChargerMinRun cfg mrt s t p).1.chargerOn = true) :
    (controlChargerMinRun cfg mrt s t p).1.lastSwitchTime = s.lastSwitchTime := by
  rw [minrun_step_on cfg mrt s t p h1] at h2 ⊢
  by_cases hp : p < cfg.powerThreshold
  · rw [if_pos hp] at h2 ⊢
    simp only [turnChargerOffMinRun, turnChargerOff] at h2 ⊢
    split_ifs at h2 ⊢ <;> simp_all
  · rw [if_neg hp] at h2 ⊢

theorem minrun_off_guard_holds (cfg : Config) (mrt : Nat) (s : CState) (t : Nat) (p : Int)
    (h1 : s.chargerOn = true)
    (h2 : (controlChargerMinRun cfg mrt s t p).1.chargerOn = false) :
    mrt ≤ usub32 t s.lastSwitchTime := by
  rw [minrun_step_on cfg mrt s t p h1] at h2
  by_cases hp : p < cfg.powerThreshold
  · rw [if_pos hp] at h2
    simp only [turnChargerOffMinRun, turnChargerOff] at h2
    split_ifs at h2 with hg ht <;> simp_all
  · rw [if_neg hp] at h2
    simp [h1] at h2

theorem minrun_switch_const (cfg : Config) (mrt : Nat) (xs : List (Nat × Int)) (s : CState) :
    ∀ n, (∀ m, m ≤ n → (stateAtMinRun cfg mrt s xs m).chargerOn = true) →
      (stateAtMinRun cfg mrt s xs n).lastSwitchTime = s.lastSwitchTime := by
  intro n
  induction n with
  | zero => intro _; rfl
  | succ k ih =>
    intro hall
    have hprev := ih fun m hm => hall m (hm.trans (Nat.le_succ k))
    have hOnk := hall k (Nat.le_succ k)
    have hOnk1 := hall (k + 1) le_rfl
    by_cases h : k < xs.length
    · have e : stateAtMinRun cfg mrt s xs (k + 1) =
          (controlChargerMinRun cfg mrt (stateAtMinRun cfg mrt s xs k)
            (xs.get ⟨k, h⟩).1 (xs.get ⟨k, h⟩).2).1 := by
        simp [stateAtMinRun, h]
      rw [e] at hOnk1 ⊢
      rw [minrun_on_preserves _ _ _ _ _ hOnk hOnk1, hprev]
    · have e : stateAtMinRun cfg mrt s xs (k + 1) = stateAtMinRun cfg mrt s xs k := by
        simp [stateAtMinRun, h]
      rw [e]
      exact hprev

/-- C1: in the `part_003` variant, while the minimum-run-time guard is
active the charger stays ON and the below-threshold timer does not start;
and over any tick sequence, as long as the charger has been ON
continuously since a transition at `lastSwitchTime`, an OFF transition at
some tick implies that at least the minimum run time had elapsed (in
32-bit modular time) since that ON transition. -/
theorem min_run_time (cfg : Config) (mrt : Nat) :
    (∀ (s : CState) (t : Nat) (p : Int),
      s.chargerOn = true → usub32 t s.lastSwitchTime < mrt →
        (controlChargerMinRun cfg mrt s t p).1.chargerOn = true ∧
        (s.powerLowStartTime = 0 →
          (controlChargerMinRun cfg mrt s t p).1.powerLowStartTime = 0)) ∧
    (∀ (xs : List (Nat × Int)) (s : CState), s.chargerOn = true →
      ∀ (n : Nat) (h : n < xs.length),
        (∀ m, m ≤ n → (stateAtMinRun cfg mrt s xs m).chargerOn = true) →
        (stateAtMinRun cfg mrt s xs (n + 1)).chargerOn = false →
        mrt ≤ usub32 (xs.get ⟨n, h⟩).1 s.lastSwitchTime) := by
  constructor
  · intro s t p h1 hguard
    rw [minrun_step_on cfg mrt s t p h1]
    by_cases hp : p < cfg.powerThreshold
    · rw [if_pos hp]
      simp only [turnChargerOffMinRun]
      rw [if_pos (by simpa using hguard)]
      exact ⟨h1, fun h0 => h0⟩
    · rw [if_neg hp]
      exact ⟨h1, fun _ => rfl⟩
  · intro xs s hs n h hall hoff
    have hprev := minrun_switch_const cfg mrt xs s n hall
    have hOnn := hall n le_rfl
    have e : stateAtMinRun cfg mrt s xs (n + 1) =
        (controlChargerMinRun cfg mrt (stateAtMinRun cfg mrt s xs n)
          (xs.get ⟨n, h⟩).1 (xs.get ⟨n, h⟩).2).1 := by
      simp [stateAtMinRun, h]
    rw [e] at hoff
    have hg := minrun_off_guard_holds _ _ _ _ _ hOnn hoff
    rwa [hprev] at hg

theorem min_run_time_witness : (60000 : Nat) ≤ usub32 230000 10000 := by
  have h := (min_run_time ⟨500, 120000⟩ 60000).2 [(100000, 0), (230000, 0)]
    ⟨true, 10000, 0, 0⟩ rfl 1 (by decide) (by decide) (by decide)
  simpa using h

/-! ### Correspondence between `main.cpp` and the `part_003` variant -/

theorem minrun_zero_guard (cfg : Config) (t : Nat) (s : CState) :
    turnChargerOffMinRun cfg 0 t s = turnChargerOff cfg t s := by
  simp [turnChargerOffMinRun]

theorem main_step_on_char (cfg : Config) (s : CState) (t : Nat) (p : Int)
    (h1 : s.chargerOn = true) :
    controlCharger cfg s t p =
      if p < cfg.powerThreshold then turnChargerOff cfg t s
      else ({ s with powerLowStartTime := 0 }, none) := by
  simp [controlCharger, h1]

theorem main_step_off_char (cfg : Config) (s : CState) (t : Nat) (p : Int)
    (h1 : s.chargerOn = false) :
    controlCharger cfg s t p =
      if cfg.powerThreshold ≤ p then turnChargerOn cfg t s
      else ({ s with powerHighStartTime := 0 }, none) := by
  simp [controlCharger, h1]

theorem minrun_step_off_char (cfg : Config) (mrt : Nat) (s : CState) (t : Nat) (p : Int)
    (h1 : s.chargerOn = false) :
    (controlChargerMinRun cfg mrt s t p).1 =
      if cfg.powerThreshold ≤ p then
        { (turnChargerOn cfg t s).1 with powerLowStartTime := 0 }
      else { s with powerHighStartTime := 0, powerLowStartTime := 0 } := by
  by_cases hp : cfg.powerThreshold ≤ p
  · have hnp : ¬ p < cfg.powerThreshold := not_lt.mpr hp
    simp [controlChargerMinRun, h1, hp, hnp]
  · have hnp : p < cfg.powerThreshold := not_le.mp hp
    simp [controlChargerMinRun, h1, hp, hnp]

/-- Simulation relation between a `main.cpp` state and a `part_003` state:
actuator state and last-transition time agree, and the timer that the
current actuator direction consults agrees; the other timer may be stale
in `main.cpp`. -/
def mainMinRunRel (sm s3 : CState) : Prop :=
  sm.chargerOn = s3.chargerOn ∧
  sm.lastSwitchTime = s3.lastSwitchTime ∧
  (sm.chargerOn = false → sm.powerHighStartTime = s3.powerHighStartTime) ∧
  (sm.chargerOn = true → sm.powerLowStartTime = s3.powerLowStartTime)

theorem rel_step (cfg : Config) (sm s3 : CState) (t : Nat) (p : Int)
    (h : mainMinRunRel sm s3) :
    mainMinRunRel (controlCharger cfg sm t p).1 (controlChargerMinRun cfg 0 s3 t p).1 := by
  obtain ⟨hOn, hLs, hHigh, hLow⟩ := h
  rcases hb : sm.chargerOn with _ | _
  · have hb3 : s3.chargerOn = false := by rw [← hOn, hb]
    have hh := hHigh hb
    rw [main_step_off_char cfg sm t p hb, minrun_step_off_char cfg 0 s3 t p hb3]
    by_cases hp : cfg.powerThreshold ≤ p
    · rw [if_pos hp, if_pos hp]
      unfold mainMinRunRel turnChargerOn
      simp only [hh, hLs]
      split_ifs <;> simp_all
    · rw [if_neg hp, if_neg hp]
      unfold mainMinRunRel
      simp_all
  · have hb3 : s3.chargerOn = true := by rw [← hOn, hb]
    have hl := hLow hb
    rw [main_step_on_char cfg sm t p hb, minrun_step_on cfg 0 s3 t p hb3]
    by_cases hp : p < cfg.powerThreshold
    · rw [if_pos hp, if_pos hp, minrun_zero_guard]
      unfold mainMinRunRel turnChargerOff
      simp only [hl, hLs]
      split_ifs <;> simp_all
    · rw [if_neg hp, if_neg hp]
      unfold mainMinRunRel
      simp_all

theorem rel_all (cfg : Config) (xs : List (Nat × Int)) :
    ∀ n, mainMinRunRel (stateAt cfg initState xs n) (stateAtMinRun cfg 0 initState xs n) := by
  intro n
  induction n with
  | zero => exact ⟨rfl, rfl, fun _ => rfl, fun _ => rfl⟩
  | succ k ih =>
    by_cases h : k < xs.length
    · simp only [stateAt, stateAtMinRun]
      rw [dif_pos h, dif_pos h]
      exact rel_step _ _ _ _ _ ih
    · simp only [stateAt, stateAtMinRun]
      rw [dif_neg h, dif_neg h]
      exact ih

/-- C8 counterexample: with identical constants (threshold 500 W,
qualification time 120 s) and the same tick times, the trace
600 W, 400 W, 600 W leaves the `main.cpp` controller OFF (the 400 W
reading resets its qualification timer) while the `part_004` variant
switches ON at the third tick (its `powerAbove` timer survives the
disqualifying reading), so the variants do not produce the same actuator
sequence. -/
theorem variant_divergence :
    (stateAt ⟨500, 120000⟩ initState
        [(10000, 600), (20000, 400), (130000, 600)] 3).chargerOn = false ∧
    (stateAtP4 500 120000 initP4
        [(10000, 600), (20000, 400), (130000, 600)] 3).isCharging = true := by
  decide

/-- C8 amended: `main.cpp` and the `part_003` variant (with its
minimum-run-time guard disabled, `MIN_RUN_TIME = 0`) implement the same
decision logic — for every configuration and tick sequence they produce
the same actuator state at every step — but the `part_004` variant does
not: it keeps above-threshold credit across disqualifying readings while
idle, so under identical constants it can produce a different actuator
sequence. -/
theorem main_matches_minrun_variant (cfg : Config) (xs : List (Nat × Int)) (n : Nat) :
    (stateAtMinRun cfg 0 initState xs n).chargerOn = (stateAt cfg initState xs n).chargerOn :=
  ((rel_all cfg xs n).1).symm

/-! ### Debounce helper lemmas for the `main.cpp` model -/

theorem turnOn_fresh (cfg : Config) (t : Nat) (s : CState) (h0 : s.powerHighStartTime = 0)
    (hH : 0 < cfg.hysteresisTime) :
    turnChargerOn cfg t s = ({ s with powerHighStartTime := t }, none) := by
  have e1 : (if s.powerHighStartTime = 0 then { s with powerHighStartTime := t } else s) =
      { s with powerHighStartTime := t } := if_pos h0
  have hc : ¬ (cfg.hysteresisTime ≤
      usub32 t ({ s with powerHighStartTime := t } : CState).powerHighStartTime) := by
    simp only [usub32_self]
    omega
  simp only [turnChargerOn, e1]
  rw [if_neg hc]

theorem turnOn_run (cfg : Config) (t : Nat) (s : CState) (h0 : s.powerHighStartTime ≠ 0)
    (hlt : usub32 t s.powerHighStartTime < cfg.hysteresisTime) :
    turnChargerOn cfg t s = (s, none) := by
  have e1 : (if s.powerHighStartTime = 0 then { s with powerHighStartTime := t } else s) = s :=
    if_neg h0
  simp only [turnChargerOn, e1]
  rw [if_neg (not_le.mpr hlt)]

/-- C3: starting OFF, if every run of consecutive qualifying readings
(at or above threshold while OFF, strictly below while ON) spans less
than the hysteresis time, the `main.cpp` controller never transitions
(it stays OFF at every step); moreover a single disqualifying reading
resets the active qualification timer to unset, leaving no credit. -/
theorem debounce (cfg : Config) (xs : List (Nat × Int)) (hH : 0 < cfg.hysteresisTime)
    (hrun : ∀ (j : Nat) (hj : j < xs.length), ∀ (i : Nat) (hij : i ≤ j),
      (∀ (k : Nat) (hk : k ≤ j), i ≤ k →
        ((stateAt cfg initState xs k).chargerOn = true →
          (xs.get ⟨k, lt_of_le_of_lt hk hj⟩).2 < cfg.powerThreshold) ∧
        ((stateAt cfg initState xs k).chargerOn = false →
          cfg.powerThreshold ≤ (xs.get ⟨k, lt_of_le_of_lt hk hj⟩).2)) →
      usub32 (xs.get ⟨j, hj⟩).1 (xs.get ⟨i, lt_of_le_of_lt hij hj⟩).1 < cfg.hysteresisTime) :
    (∀ n, (stateAt cfg initState xs n).chargerOn = false) ∧
    (∀ (s : CState) (t : Nat) (q : Int),
      (s.chargerOn = false → q < cfg.powerThreshold →
        (controlCharger cfg s t q).1.powerHighStartTime = 0) ∧
      (s.chargerOn = true → cfg.powerThreshold ≤ q →
        (controlCharger cfg s t q).1.powerLowStartTime = 0)) := by
  constructor
  · suffices H : ∀ n, (∀ m, m ≤ n → (stateAt cfg initState xs m).chargerOn = false) ∧
        ((stateAt cfg initState xs n).powerHighStartTime ≠ 0 →
          ∃ i, i < n ∧ ∃ hi : i < xs.length,
            (xs.get ⟨i, hi⟩).1 = (stateAt cfg initState xs n).powerHighStartTime ∧
            ∀ (k2 : Nat) (hk2 : k2 < xs.length), i ≤ k2 → k2 < n →
              cfg.powerThreshold ≤ (xs.get ⟨k2, hk2⟩).2) by
      intro n
      exact (H n).1 n le_rfl
    intro n
    induction n with
    | zero =>
      refine ⟨?_, ?_⟩
      · intro m hm
        rw [Nat.le_zero.mp hm]
        rfl
      · intro hne
        exact absurd rfl hne
    | succ k ih =>
      by_cases hlen : k < xs.length
      · have e : stateAt cfg initState xs (k + 1) =
            (controlCharger cfg (stateAt cfg initState xs k)
              (xs.get ⟨k, hlen⟩).1 (xs.get ⟨k, hlen⟩).2).1 := by
          simp [stateAt, hlen]
        have hOffk : (stateAt cfg initState xs k).chargerOn = false := ih.1 k le_rfl
        by_cases hq : cfg.powerThreshold ≤ (xs.get ⟨k, hlen⟩).2
        · rw [main_step_off_char _ _ _ _ hOffk, if_pos hq] at e
          by_cases h0 : (stateAt cfg initState xs k).powerHighStartTime = 0
          · rw [turnOn_fresh _ _ _ h0 hH] at e
            refine ⟨?_, ?_⟩
            · intro m hm
              by_cases hm' : m ≤ k
              · exact ih.1 m hm'
              · have hmeq : m = k + 1 := by omega
                rw [hmeq, e]
                exact hOffk
            · intro hne
              rw [e] at hne ⊢
              refine ⟨k, Nat.lt_succ_self k, hlen, rfl, ?_⟩
              intro k2 hk2 hik2 hk2n
              have hk2eq : k2 = k := by omega
              subst hk2eq
              exact hq
          · obtain ⟨i, hik, hi, hval, hrp⟩ := ih.2 h0
            have hqual : ∀ (k2 : Nat) (hk2 : k2 ≤ k), i ≤ k2 →
                ((stateAt cfg initState xs k2).chargerOn = true →
                  (xs.get ⟨k2, lt_of_le_of_lt hk2 hlen⟩).2 < cfg.powerThreshold) ∧
                ((stateAt cfg initState xs k2).chargerOn = false →
                  cfg.powerThreshold ≤ (xs.get ⟨k2, lt_of_le_of_lt hk2 hlen⟩).2) := by
              intro k2 hk2 hik2
              have hoff2 : (stateAt cfg initState xs k2).chargerOn = false := ih.1 k2 hk2
              refine ⟨?_, ?_⟩
              · intro hcon
                rw [hoff2] at hcon
                exact absurd hcon (by simp)
              · intro _
                by_cases hk2k : k2 < k
                · exact hrp k2 (lt_of_le_of_lt hk2 hlen) hik2 hk2k
                · have hk2eq : k2 = k := by omega
                  subst hk2eq
                  exact hq
            have hspan := hrun k hlen i hik.le hqual
            rw [hval] at hspan
            rw [turnOn_run _ _ _ h0 hspan] at e
            refine ⟨?_, ?_⟩
            · intro m hm
              by_cases hm' : m ≤ k
              · exact ih.1 m hm'
              · have hmeq : m = k + 1 := by omega
                rw [hmeq, e]
                exact hOffk
            · intro hne
              rw [e] at hne ⊢
              refine ⟨i, Nat.lt_succ_of_lt hik, hi, hval, ?_⟩
              intro k2 hk2 hik2 hk2n
              by_cases hk2k : k2 < k
              · exact hrp k2 hk2 hik2 hk2k
              · have hk2eq : k2 = k := by omega
                subst hk2eq
                exact hq
        · rw [main_step_off_char _ _ _ _ hOffk, if_neg hq] at e
          refine ⟨?_, ?_⟩
          · intro m hm
            by_cases hm' : m ≤ k
            · exact ih.1 m hm'
            · have hmeq : m = k + 1 := by omega
              rw [hmeq, e]
              exact hOffk
          · intro hne
            rw [e] at hne
            exact absurd rfl hne
      · have e : stateAt cfg initState xs (k + 1) = stateAt cfg initState xs k := by
          simp [stateAt, hlen]
        refine ⟨?_, ?_⟩
        · intro m hm
          by_cases hm' : m ≤ k
          · exact ih.1 m hm'
          · have hmeq : m = k + 1 := by omega
            rw [hmeq, e]
            exact ih.1 k le_rfl
        · rw [e]
          intro hne
          obtain ⟨i, hik, hi, hval, hrp⟩ := ih.2 hne
          refine ⟨i, Nat.lt_succ_of_lt hik, hi, hval, ?_⟩
          intro k2 hk2 hik2 hk2n
          exact hrp k2 hk2 hik2 (by omega)
  · intro s t q
    constructor
    · intro hOff hq
      rw [main_step_off_char _ _ _ _ hOff, if_neg (not_le.mpr hq)]
    · intro hOn hq
      rw [main_step_on_char _ _ _ _ hOn, if_neg (not_lt.mpr hq)]

theorem debounce_witness :
    (stateAt ⟨500, 120000⟩ initState [(10000, 600), (20000, 400)] 2).chargerOn = false :=
  (debounce ⟨500, 120000⟩ [(10000, 600), (20000, 400)] (by decide) (by decide)).1 2

end EnergyMonitor
